import Mathlib

/-!
Verification development for the SolarConflux repository.

The embedding translates `src/solarconflux/geometries.py` (class `Geometry`:
`calculate_angles`, `parker_spiral_function`, `check_geometry`),
the variant module `src/solarconflux/spatialitems/geometries.py`, and
`src/solarconflux/functions.py` (`matching_dates`).  Floating point numbers
are modelled as real numbers, Python's `%` on floats as `fmod` below,
`np.isclose(a, b, atol=t)` by its documented semantics
`|a - b| <= t + rtol * |b|` with numpy's default `rtol = 1e-5`,
and timestamps as opaque natural numbers (the code only threads them
through and formats them at emission).
-/

namespace SolarConflux

/-- Python's float modulo `x % y`: the remainder with the sign of `y`;
for `y > 0` this is `x - y * floor (x / y)`. -/
noncomputable def fmod (x y : ℝ) : ℝ := x - y * ⌊x / y⌋

/-- `np.isclose(a, b, atol := atol)` with numpy's default relative
tolerance `rtol = 1e-5`: `|a - b| <= atol + rtol * |b|`. -/
def np_isclose (a b atol : ℝ) : Prop := |a - b| ≤ atol + (1e-5 : ℝ) * |b|

/-- The per-(timestep, body) data the classifier consumes: the wrapped
longitude from `self.angles`, the latitude from `self.latitudes`, and the
radial distance in km from `skycoords[step].spherical.distance`. -/
structure BodyState where
  lon : ℝ
  lat : ℝ
  r : ℝ

/-- The tunable state of the `Geometry` class constructor
(`cone_width`, `tolerance`, `solar_rotation_period`). -/
structure Geometry where
  cone_width : ℝ
  tolerance : ℝ
  solar_rotation_period : ℝ

/-- `self.tolerance_parker = np.radians(5)` — fixed in `__init__`. -/
noncomputable def Geometry.tolerance_parker (_g : Geometry) : ℝ := 5 * Real.pi / 180

/-- `self.source_surface_radius = 2.5 * 696000.0` (km). -/
noncomputable def Geometry.source_surface_radius (_g : Geometry) : ℝ := 2.5 * 696000.0

/-- `self.solar_rotation_rate = 2 * np.pi / (solar_rotation_period * 24 * 3600)`. -/
noncomputable def Geometry.solar_rotation_rate (g : Geometry) : ℝ :=
  2 * Real.pi / (g.solar_rotation_period * 24 * 3600)

/-- The constructor defaults: `cone_width=np.radians(10)`,
`tolerance=np.radians(10)`, `solar_rotation_period=25.38`. -/
noncomputable def defaultGeometry : Geometry :=
  ⟨10 * Real.pi / 180, 10 * Real.pi / 180, 25.38⟩

/-- `Geometry.parker_spiral_function(r_km, lon_rad, u_sw_mps)`:
`r_m = r_km * 1e3`, `r_ss_m = source_surface_radius * 1e3`,
`phi_0 = lon_rad + (solar_rotation_rate / u_sw_mps) * (r_m - r_ss_m)`,
returned as `phi_0 % (2 * np.pi)`. -/
noncomputable def parker_spiral_function (g : Geometry) (r_km lon_rad u_sw_mps : ℝ) : ℝ :=
  fmod (lon_rad + (g.solar_rotation_rate / u_sw_mps) *
    (r_km * 1000 - g.source_surface_radius * 1000)) (2 * Real.pi)

/-- `Geometry.calculate_angles`: per step and body, the raw `(lon, lat)`
sample is turned into `lon % (2 * np.pi)` (stored in `self.angles`) and the
unchanged latitude (stored in `self.latitudes`). -/
noncomputable def calculate_angles (raw : List (List (ℝ × ℝ))) :
    List (List ℝ) × List (List ℝ) :=
  (raw.map (fun row => row.map (fun s => fmod s.1 (2 * Real.pi))),
   raw.map (fun row => row.map (fun s => s.2)))

/-- The pairwise condition of `Geometry.check_geometry`
(`src/solarconflux/geometries.py`, lines 104-123): the `if/elif` chain on
`mode`, with `arbitrary_angle` optional and the final `else` giving
`condition = False`. -/
def conditionFor (g : Geometry) (mode : String) (arbitrary_angle : Option ℝ)
    (u_sw : ℝ) (s1 s2 : BodyState) : Prop :=
  if mode = "opposition" then
    np_isclose |s1.lon - s2.lon| Real.pi g.tolerance
  else if mode = "cone" then
    |s1.lon - s2.lon| ≤ g.cone_width
  else if mode = "quadrature" then
    np_isclose |s1.lon - s2.lon| (Real.pi / 2) g.tolerance ∨
      np_isclose |s1.lat - s2.lat| (Real.pi / 2) g.tolerance
  else if mode = "arbitrary" then
    match arbitrary_angle with
    | some a => np_isclose |s1.lon - s2.lon| a g.tolerance
    | none => False
  else if mode = "parker" then
    np_isclose (parker_spiral_function g s1.r s1.lon u_sw)
        (parker_spiral_function g s2.r s2.lon u_sw) g.tolerance_parker ∧
      np_isclose s1.lat s2.lat g.tolerance
  else if mode = "coneparker" then
    |s1.lon - s2.lon| ≤ g.cone_width ∧
      np_isclose (parker_spiral_function g s1.r s1.lon u_sw)
        (parker_spiral_function g s2.r s2.lon u_sw) g.tolerance_parker ∧
      np_isclose s1.lat s2.lat g.tolerance
  else
    False

/-- The pairwise condition of the variant module
`src/solarconflux/spatialitems/geometries.py` (lines 97-114): same chain,
but `quadrature` has no latitude branch and `parker`/`coneparker` have no
latitude-closeness conjunct. -/
def spatialitems_conditionFor (g : Geometry) (mode : String)
    (arbitrary_angle : Option ℝ) (u_sw : ℝ) (s1 s2 : BodyState) : Prop :=
  if mode = "opposition" then
    np_isclose |s1.lon - s2.lon| Real.pi g.tolerance
  else if mode = "cone" then
    |s1.lon - s2.lon| ≤ g.cone_width
  else if mode = "quadrature" then
    np_isclose |s1.lon - s2.lon| (Real.pi / 2) g.tolerance
  else if mode = "arbitrary" then
    match arbitrary_angle with
    | some a => np_isclose |s1.lon - s2.lon| a g.tolerance
    | none => False
  else if mode = "parker" then
    np_isclose (parker_spiral_function g s1.r s1.lon u_sw)
      (parker_spiral_function g s2.r s2.lon u_sw) g.tolerance_parker
  else if mode = "coneparker" then
    |s1.lon - s2.lon| ≤ g.cone_width ∧
      np_isclose (parker_spiral_function g s1.r s1.lon u_sw)
        (parker_spiral_function g s2.r s2.lon u_sw) g.tolerance_parker
  else
    False

/-- Modelled from the spec: the `wrap` function of section 4.3 that "maps a
signed angular difference into a representative range before taking
absolute value" — reduction by the nearest multiple of `2π`, landing in
`[-π, π)`.  No wrapping of longitude differences exists in the source; this
definition only states the spec's side of claim C2. -/
noncomputable def wrapSpec (x : ℝ) : ℝ := x - 2 * Real.pi * (round (x / (2 * Real.pi)) : ℤ)

/- ## Basic facts about fmod -/

/-- A canonical group: `tuple(sorted(group))` in the source. -/
abbrev Group := List String

/-- A closed alignment record `(start_date, end_date, group)`. -/
abbrev TrackRec := ℕ × ℕ × Group

/-- Lookup in an insertion-ordered association list (a Python `dict`). -/
def lookupD {α β : Type} [DecidableEq α] : List (α × β) → α → Option β
  | [], _ => none
  | e :: rest, k => if e.1 = k then some e.2 else lookupD rest k

/-- `d[k] = v` on a Python `dict` with unique keys: replace in place if the
key is present, append otherwise. -/
def dictInsert {α β : Type} [DecidableEq α] : List (α × β) → α → β → List (α × β)
  | [], k, v => [(k, v)]
  | e :: rest, k, v => if e.1 = k then (k, v) :: rest else e :: dictInsert rest k v

/-- The candidate group for anchor `sc1`: `group = {spacecraft1}` plus every
`spacecraft2 != spacecraft1` whose pairwise condition holds
(`check_geometry`, lines 94-126). -/
def buildGroup (cond : String → String → Bool) (bodies : List String)
    (sc1 : String) : List String :=
  sc1 :: bodies.filter (fun sc2 => !(sc2 == sc1) && cond sc1 sc2)

/-- The filter of line 128: keep a candidate group iff `len(group) > 1` and
not (`len(group) == 2 and 'Sun' in group`). -/
def keepGroup (grp : List String) : Prop :=
  1 < grp.length ∧ ¬(grp.length = 2 ∧ "Sun" ∈ grp)

instance (grp : List String) : Decidable (keepGroup grp) := by
  unfold keepGroup
  infer_instance

/-- Python's string comparison used by `sorted(group)`: lexicographic
order on the code points. `String` carries its own `<=` in Lean, but one
whose `Decidable` instance the kernel cannot evaluate, so the order is
spelled out on the character lists. -/
def strLeAux : List Char → List Char → Bool
  | [], _ => true
  | _ :: _, [] => false
  | a :: as, b :: bs =>
    if a.toNat < b.toNat then true
    else if b.toNat < a.toNat then false
    else strLeAux as bs

def strLe (a b : String) : Bool := strLeAux a.data b.data

/-- `tuple(sorted(group))`: the canonical sorted form. -/
def sortGroup (grp : List String) : List String :=
  List.insertionSort (fun a b => strLe a b = true) grp

/-- The per-timestep group list of `check_geometry` (lines 87-129):
one surviving candidate group, canonicalized, per anchor body that passes
the filter; the list may repeat a membership discovered from two anchors. -/
def buildGroupsAux (bodies : List String) (cond : String → String → Bool) :
    List String → List Group
  | [] => []
  | sc1 :: rest =>
    let grp := buildGroup cond bodies sc1
    (if keepGroup grp then [sortGroup grp] else []) ++ buildGroupsAux bodies cond rest

/-- All anchors scanned: `for spacecraft1 in self.trajectories`. -/
def buildGroups (bodies : List String) (cond : String → String → Bool) : List Group :=
  buildGroupsAux bodies cond bodies

/-- The timestep's set of distinct canonical groups: duplicates discovered
from different anchors collapse when the list becomes the keys of the
`new_active_groups` dict (lines 131-137); `buildNewActive_keys_*` below tie
this to the dict. -/
def stepGroupSet (bodies : List String) (cond : String → String → Bool) : List Group :=
  (buildGroups bodies cond).dedup

/-- `new_active_groups` being built (lines 131-137): each current group
keeps its old start date if already active, else opens at `date`, and the
running end becomes `date`. -/
def buildNewActiveAux (active : List (Group × ℕ × ℕ)) (date : ℕ) :
    List Group → List (Group × ℕ × ℕ) → List (Group × ℕ × ℕ)
  | [], nd => nd
  | g :: rest, nd =>
    buildNewActiveAux active date rest
      (dictInsert nd g (match lookupD active g with
        | some p => (p.1, date)
        | none => (date, date)))

/-- The whole `new_active_groups` dict for one timestep. -/
def buildNewActive (active : List (Group × ℕ × ℕ)) (date : ℕ)
    (groups : List Group) : List (Group × ℕ × ℕ) :=
  buildNewActiveAux active date groups []

/-- The records emitted at one step (lines 139-145): every previously
active group absent from `new_active_groups` closes as
`(start_date, end_date, group)`. -/
def endedEntries (active newActive : List (Group × ℕ × ℕ)) : List TrackRec :=
  (active.filter (fun e => (lookupD newActive e.1).isNone)).map
    (fun e => (e.2.1, e.2.2, e.1))

/-- The fold of the tracker loop (lines 85-147) over the ordered
`(date, groups)` steps, threading `active_groups` and `matching_entries`. -/
def trackStepsAux : List (ℕ × List Group) → List (Group × ℕ × ℕ) →
    List TrackRec → List (Group × ℕ × ℕ) × List TrackRec
  | [], active, recs => (active, recs)
  | st :: rest, active, recs =>
    let na := buildNewActive active st.1 st.2
    trackStepsAux rest na (recs ++ endedEntries active na)

/-- The Interval Tracker: run the loop from empty state, then flush every
still-active group with its running end date (lines 149-154). -/
def trackIntervals (steps : List (ℕ × List Group)) : List TrackRec :=
  let st := trackStepsAux steps [] []
  st.2 ++ st.1.map (fun e => (e.2.1, e.2.2, e.1))

/-- `Geometry.check_geometry` assembled: per-step dates and group lists fed
through the Interval Tracker (the classifier arrives as a boolean, indexed
by step). -/
def check_geometry (dates : List ℕ) (bodies : List String)
    (cond : ℕ → String → String → Bool) : List TrackRec :=
  trackIntervals (dates.enum.map (fun p => (p.2, buildGroups bodies (cond p.1))))

/-- The six recognized values of `matching_dates`
(`src/solarconflux/functions.py`, line 113). -/
def recognizedModes : List String :=
  ["opposition", "cone", "quadrature", "arbitrary", "parker", "coneparker"]

/-- The loop body of `matching_dates` (lines 112-119): a recognized mode is
scanned (`check` stands for `geometry.check_geometry` at the call's
parameters, applied to `mode.lower()`), and its matches enter the result
dict only when the list is non-empty (`if matches:`); an unrecognized mode
is passed over. -/
def matching_datesAux (check : String → List TrackRec) :
    List String → List (String × List TrackRec) → List (String × List TrackRec)
  | [], acc => acc
  | mode :: rest, acc =>
    matching_datesAux check rest
      (if mode ∈ recognizedModes then
        (if check mode.toLower ≠ [] then dictInsert acc mode (check mode.toLower) else acc)
      else acc)

/-- `matching_dates`: fold the requested modes into `all_matching_entries`,
starting from the empty dict. -/
def matching_dates (geometry_choices : List String)
    (check : String → List TrackRec) : List (String × List TrackRec) :=
  matching_datesAux check geometry_choices []

/- ## Unfolding the mode dispatch -/

/-- The keys of an association list, in insertion order. -/
def keysOf {α β : Type} (d : List (α × β)) : List α := d.map Prod.fst

/-! ## Theorems -/

theorem fmod_eq_mul_fract (x : ℝ) {y : ℝ} (hy : y ≠ 0) :
    fmod x y = y * Int.fract (x / y) := by
  unfold fmod Int.fract
  rw [mul_sub, mul_div_cancel₀ x hy]

theorem fmod_nonneg_of_pos (x : ℝ) {y : ℝ} (hy : 0 < y) : 0 ≤ fmod x y := by
  rw [fmod_eq_mul_fract x hy.ne']
  exact mul_nonneg hy.le (Int.fract_nonneg _)

theorem fmod_lt_of_pos (x : ℝ) {y : ℝ} (hy : 0 < y) : fmod x y < y := by
  rw [fmod_eq_mul_fract x hy.ne']
  calc y * Int.fract (x / y) < y * 1 :=
        mul_lt_mul_of_pos_left (Int.fract_lt_one _) hy
    _ = y := mul_one y

theorem fmod_eq_self {x y : ℝ} (h0 : 0 ≤ x) (h1 : x < y) : fmod x y = x := by
  have hy : 0 < y := lt_of_le_of_lt h0 h1
  have hfloor : ⌊x / y⌋ = 0 := by
    rw [Int.floor_eq_zero_iff]
    exact ⟨div_nonneg h0 hy.le, (div_lt_one hy).mpr h1⟩
  simp [fmod, hfloor]

/- ## The discrete layer: groups, the interval tracker, the scanner.

The pairwise condition is a computed boolean by the time `check_geometry`
uses it, so the group builder and everything after it are parametrized by a
boolean classifier `cond`; the per-step records and timestamps are opaque
naturals. -/

theorem strLeAux_total : ∀ as bs : List Char,
    strLeAux as bs = true ∨ strLeAux bs as = true := by
  intro as
  induction as with
  | nil => intro bs; left; rfl
  | cons a as ih =>
    intro bs
    cases bs with
    | nil => right; rfl
    | cons b bs =>
      rcases Nat.lt_trichotomy a.toNat b.toNat with h | h | h
      · left; simp [strLeAux, h]
      · have h1 : ¬ a.toNat < b.toNat := by omega
        have h2 : ¬ b.toNat < a.toNat := by omega
        rcases ih bs with hh | hh
        · left; simp [strLeAux, h1, h2, hh]
        · right; simp [strLeAux, h1, h2, hh]
      · right; simp [strLeAux, h]

theorem strLeAux_trans : ∀ as bs cs : List Char, strLeAux as bs = true →
    strLeAux bs cs = true → strLeAux as cs = true := by
  intro as
  induction as with
  | nil => intro bs cs h1 h2; rfl
  | cons a as ih =>
    intro bs cs h1 h2
    cases bs with
    | nil => simp [strLeAux] at h1
    | cons b bs =>
      cases cs with
      | nil => simp [strLeAux] at h2
      | cons c cs =>
        by_cases hab : a.toNat < b.toNat
        · by_cases hbc : b.toNat < c.toNat
          · have hac : a.toNat < c.toNat := Nat.lt_trans hab hbc
            simp [strLeAux, hac]
          · by_cases hcb : c.toNat < b.toNat
            · simp [strLeAux, hbc, hcb] at h2
            · have hac : a.toNat < c.toNat := by omega
              simp [strLeAux, hac]
        · by_cases hba : b.toNat < a.toNat
          · simp [strLeAux, hab, hba] at h1
          · by_cases hbc : b.toNat < c.toNat
            · have hac : a.toNat < c.toNat := by omega
              simp [strLeAux, hac]
            · by_cases hcb : c.toNat < b.toNat
              · simp [strLeAux, hbc, hcb] at h2
              · have hac1 : ¬ a.toNat < c.toNat := by omega
                have hac2 : ¬ c.toNat < a.toNat := by omega
                simp [strLeAux, hab, hba] at h1
                simp [strLeAux, hbc, hcb] at h2
                simp [strLeAux, hac1, hac2]
                exact ih bs cs h1 h2

theorem conditionFor_opposition (g : Geometry) (aa : Option ℝ) (u : ℝ)
    (s1 s2 : BodyState) : conditionFor g "opposition" aa u s1 s2 ↔
    np_isclose |s1.lon - s2.lon| Real.pi g.tolerance := by
  simp [conditionFor]

theorem conditionFor_cone (g : Geometry) (aa : Option ℝ) (u : ℝ)
    (s1 s2 : BodyState) : conditionFor g "cone" aa u s1 s2 ↔
    |s1.lon - s2.lon| ≤ g.cone_width := by
  simp [conditionFor]

theorem conditionFor_quadrature (g : Geometry) (aa : Option ℝ) (u : ℝ)
    (s1 s2 : BodyState) : conditionFor g "quadrature" aa u s1 s2 ↔
    (np_isclose |s1.lon - s2.lon| (Real.pi / 2) g.tolerance ∨
      np_isclose |s1.lat - s2.lat| (Real.pi / 2) g.tolerance) := by
  simp [conditionFor]

theorem conditionFor_arbitrary_some (g : Geometry) (a : ℝ) (u : ℝ)
    (s1 s2 : BodyState) : conditionFor g "arbitrary" (some a) u s1 s2 ↔
    np_isclose |s1.lon - s2.lon| a g.tolerance := by
  simp [conditionFor]

theorem conditionFor_arbitrary_none (g : Geometry) (u : ℝ)
    (s1 s2 : BodyState) : ¬ conditionFor g "arbitrary" none u s1 s2 := by
  simp [conditionFor]

theorem conditionFor_parker (g : Geometry) (aa : Option ℝ) (u : ℝ)
    (s1 s2 : BodyState) : conditionFor g "parker" aa u s1 s2 ↔
    (np_isclose (parker_spiral_function g s1.r s1.lon u)
        (parker_spiral_function g s2.r s2.lon u) g.tolerance_parker ∧
      np_isclose s1.lat s2.lat g.tolerance) := by
  simp [conditionFor]

theorem conditionFor_coneparker (g : Geometry) (aa : Option ℝ) (u : ℝ)
    (s1 s2 : BodyState) : conditionFor g "coneparker" aa u s1 s2 ↔
    (|s1.lon - s2.lon| ≤ g.cone_width ∧
      np_isclose (parker_spiral_function g s1.r s1.lon u)
        (parker_spiral_function g s2.r s2.lon u) g.tolerance_parker ∧
      np_isclose s1.lat s2.lat g.tolerance) := by
  simp [conditionFor]

theorem spatialitems_conditionFor_parker (g : Geometry) (aa : Option ℝ) (u : ℝ)
    (s1 s2 : BodyState) : spatialitems_conditionFor g "parker" aa u s1 s2 ↔
    np_isclose (parker_spiral_function g s1.r s1.lon u)
      (parker_spiral_function g s2.r s2.lon u) g.tolerance_parker := by
  simp [spatialitems_conditionFor]

/- ## Dict lemmas -/

theorem lookupD_dictInsert_self {α β : Type} [DecidableEq α]
    (d : List (α × β)) (k : α) (v : β) : lookupD (dictInsert d k v) k = some v := by
  induction d with
  | nil => simp [dictInsert, lookupD]
  | cons e rest ih =>
    by_cases h : e.1 = k
    · simp [dictInsert, h, lookupD]
    · simp [dictInsert, h, lookupD, ih]

theorem lookupD_dictInsert_ne {α β : Type} [DecidableEq α]
    (d : List (α × β)) {k k' : α} (v : β) (hne : k' ≠ k) :
    lookupD (dictInsert d k v) k' = lookupD d k' := by
  have hk : ¬(k = k') := fun h => hne h.symm
  induction d with
  | nil => simp [dictInsert, lookupD, hk]
  | cons e rest ih =>
    by_cases h : e.1 = k
    · simp [dictInsert, h, lookupD, hk]
    · simp [dictInsert, h, lookupD, ih]

theorem lookupD_isSome_iff {α β : Type} [DecidableEq α] (d : List (α × β))
    (k : α) : (lookupD d k).isSome = true ↔ k ∈ keysOf d := by
  induction d with
  | nil => simp [lookupD, keysOf]
  | cons e rest ih =>
    by_cases h : e.1 = k
    · simp [lookupD, keysOf, h]
    · have hk : ¬(k = e.1) := fun hh => h hh.symm
      simp [lookupD, keysOf, h, hk, ih]

theorem keysOf_dictInsert {α β : Type} [DecidableEq α] (d : List (α × β))
    (k : α) (v : β) :
    keysOf (dictInsert d k v) =
      if k ∈ keysOf d then keysOf d else keysOf d ++ [k] := by
  induction d with
  | nil => simp [dictInsert, keysOf]
  | cons e rest ih =>
    by_cases h : e.1 = k
    · simp [dictInsert, keysOf, h]
    · have hk : ¬(k = e.1) := fun hh => h hh.symm
      simp only [keysOf] at ih ⊢
      simp only [dictInsert, if_neg h, List.map_cons, List.mem_cons, hk, false_or, ih]
      by_cases hmem : k ∈ List.map Prod.fst rest
      · simp [hmem]
      · simp [hmem]

theorem mem_keysOf_buildNewActiveAux (act : List (Group × ℕ × ℕ)) (date : ℕ)
    (gs : List Group) (nd : List (Group × ℕ × ℕ)) (k : Group) :
    k ∈ keysOf (buildNewActiveAux act date gs nd) ↔ k ∈ keysOf nd ∨ k ∈ gs := by
  induction gs generalizing nd with
  | nil => simp [buildNewActiveAux]
  | cons g rest ih =>
    rw [buildNewActiveAux, ih, keysOf_dictInsert]
    by_cases hg : g ∈ keysOf nd
    · simp only [hg, if_true, List.mem_cons]
      constructor
      · rintro (h | h)
        · exact Or.inl h
        · exact Or.inr (Or.inr h)
      · rintro (h | h | h)
        · exact Or.inl h
        · exact Or.inl (h ▸ hg)
        · exact Or.inr h
    · simp only [hg, if_false, List.mem_append, List.mem_singleton, List.mem_cons]
      tauto

theorem nodup_keysOf_buildNewActiveAux (act : List (Group × ℕ × ℕ)) (date : ℕ)
    (gs : List Group) (nd : List (Group × ℕ × ℕ))
    (hnd : (keysOf nd).Nodup) :
    (keysOf (buildNewActiveAux act date gs nd)).Nodup := by
  induction gs generalizing nd with
  | nil => simpa [buildNewActiveAux] using hnd
  | cons g rest ih =>
    rw [buildNewActiveAux]
    apply ih
    rw [keysOf_dictInsert]
    by_cases hg : g ∈ keysOf nd
    · simpa [hg] using hnd
    · simp only [hg, if_false]
      refine List.Nodup.append hnd (List.nodup_singleton g) ?_
      intro a ha hb
      rw [List.mem_singleton] at hb
      exact hg (hb ▸ ha)

/-- `new_active_groups` holds each current group exactly once: its keys are
exactly the distinct members of the step's group list. -/
theorem buildNewActive_keys_mem (act : List (Group × ℕ × ℕ)) (date : ℕ)
    (gs : List Group) (k : Group) :
    k ∈ keysOf (buildNewActive act date gs) ↔ k ∈ gs := by
  rw [buildNewActive, mem_keysOf_buildNewActiveAux]
  simp [keysOf]

theorem buildNewActive_keys_nodup (act : List (Group × ℕ × ℕ)) (date : ℕ)
    (gs : List Group) : (keysOf (buildNewActive act date gs)).Nodup :=
  nodup_keysOf_buildNewActiveAux act date gs [] (by simp [keysOf])

/-- C1: The Interval Tracker emits exactly one record per maximal
contiguous run: a group present at timesteps `t1..t5`, absent at `t6`,
present again at `t7..t9` yields exactly the records `(t1, t5)` and
`(t7, t9)` — never one merged record across the gap and never one record
per timestep — and the interval still open after the final timestep `t9`
closes with `t9` as its end. -/
theorem C1_interval_tracker_maximal_runs (g : Group)
    (t1 t2 t3 t4 t5 t6 t7 t8 t9 : ℕ) :
    trackIntervals [(t1, [g]), (t2, [g]), (t3, [g]), (t4, [g]), (t5, [g]),
      (t6, []), (t7, [g]), (t8, [g]), (t9, [g])] =
      [(t1, t5, g), (t7, t9, g)] := by
  simp [trackIntervals, trackStepsAux, buildNewActive, buildNewActiveAux,
    dictInsert, lookupD, endedEntries]

/- ## The Group Builder's output -/

theorem sortGroup_perm (grp : List String) : List.Perm (sortGroup grp) grp :=
  List.perm_insertionSort _ grp

theorem sortGroup_sorted (grp : List String) :
    List.Sorted (fun a b => strLe a b = true) (sortGroup grp) := by
  haveI : IsTotal String (fun a b => strLe a b = true) :=
    ⟨fun a b => strLeAux_total a.data b.data⟩
  haveI : IsTrans String (fun a b => strLe a b = true) :=
    ⟨fun a b c => strLeAux_trans a.data b.data c.data⟩
  exact List.sorted_insertionSort _ grp

theorem nodup_buildGroup (cond : String → String → Bool) {bodies : List String}
    (sc1 : String) (hb : bodies.Nodup) : (buildGroup cond bodies sc1).Nodup := by
  rw [buildGroup, List.nodup_cons]
  refine ⟨?_, hb.filter _⟩
  intro hmem
  have h := List.of_mem_filter hmem
  simp at h

theorem mem_buildGroupsAux (bodies : List String) (cond : String → String → Bool)
    (anchors : List String) (g : Group) :
    g ∈ buildGroupsAux bodies cond anchors ↔
      ∃ sc1, sc1 ∈ anchors ∧ keepGroup (buildGroup cond bodies sc1) ∧
        g = sortGroup (buildGroup cond bodies sc1) := by
  induction anchors with
  | nil => simp [buildGroupsAux]
  | cons sc rest ih =>
    by_cases hk : keepGroup (buildGroup cond bodies sc)
    · simp only [buildGroupsAux, hk, if_true, List.mem_append, List.mem_singleton,
        List.not_mem_nil, or_false, ih, List.mem_cons]
      constructor
      · rintro (rfl | ⟨sc1, h1, h2, h3⟩)
        · exact ⟨sc, Or.inl rfl, hk, rfl⟩
        · exact ⟨sc1, Or.inr h1, h2, h3⟩
      · rintro ⟨sc1, (rfl | h1), h2, h3⟩
        · exact Or.inl h3
        · exact Or.inr ⟨sc1, h1, h2, h3⟩
    · simp only [buildGroupsAux, hk, if_false, List.nil_append, ih, List.mem_cons]
      constructor
      · rintro ⟨sc1, h1, h2, h3⟩
        exact ⟨sc1, Or.inr h1, h2, h3⟩
      · rintro ⟨sc1, (rfl | h1), h2, h3⟩
        · exact absurd h2 hk
        · exact ⟨sc1, h1, h2, h3⟩

/-- C4: every group in a timestep's output set is canonical — sorted in the
string order, duplicate-free, of size at least 2 and not a size-2 group
containing the body named Sun — and identical memberships found from
different anchors collapse to one element of the set (the set itself is
duplicate-free, as are the keys of the tracker dict it feeds, by
`buildNewActive_keys_mem` and `buildNewActive_keys_nodup`). -/
theorem C4_group_builder_canonical (bodies : List String)
    (cond : String → String → Bool) (g : Group) (hb : bodies.Nodup)
    (hg : g ∈ stepGroupSet bodies cond) :
    List.Sorted (fun a b => strLe a b = true) g ∧ g.Nodup ∧ 2 ≤ g.length ∧
      ¬(g.length = 2 ∧ "Sun" ∈ g) ∧ (stepGroupSet bodies cond).Nodup := by
  have hg2 : g ∈ buildGroupsAux bodies cond bodies := by
    have := List.mem_dedup.mp hg
    rwa [buildGroups] at this
  obtain ⟨sc1, hsc1, hkeep, rfl⟩ := (mem_buildGroupsAux bodies cond bodies g).mp hg2
  have hperm := sortGroup_perm (buildGroup cond bodies sc1)
  refine ⟨sortGroup_sorted _, ?_, ?_, ?_, List.nodup_dedup _⟩
  · exact hperm.nodup_iff.mpr (nodup_buildGroup cond sc1 hb)
  · rw [hperm.length_eq]
    exact hkeep.1
  · rw [hperm.length_eq]
    intro hcon
    exact hkeep.2 ⟨hcon.1, hperm.mem_iff.mp hcon.2⟩

/-- C4 witness: two mutually aligned bodies A and B give the single
canonical group [A, B]. -/
theorem C4_group_builder_canonical_witness :
    (["A", "B"] : List String).Nodup ∧
      ["A", "B"] ∈ stepGroupSet ["A", "B"] (fun _ _ => true) ∧
      (List.Sorted (fun a b => strLe a b = true) ["A", "B"] ∧
        (["A", "B"] : List String).Nodup ∧
        2 ≤ (["A", "B"] : List String).length ∧
        ¬((["A", "B"] : List String).length = 2 ∧ "Sun" ∈ (["A", "B"] : List String)) ∧
        (stepGroupSet ["A", "B"] (fun _ _ => true)).Nodup) :=
  ⟨by decide, by decide,
    C4_group_builder_canonical ["A", "B"] (fun _ _ => true) ["A", "B"]
      (by decide) (by decide)⟩

/-- C3: the Parker Spiral Mapper at the default rotation period 25.38 days
returns exactly `(lon + (Ω / u_sw) * (r * 1000 - 2.5 * 696000 * 1000)) mod 2π`
with `Ω = 2π / (25.38 * 86400)`, and the result lies in `[0, 2π)`. -/
theorem C3_parker_spiral_formula (r lon u : ℝ) (_hu : 0 < u) :
    parker_spiral_function defaultGeometry r lon u =
      fmod (lon + (2 * Real.pi / (25.38 * 86400) / u) *
        (r * 1000 - 2.5 * 696000 * 1000)) (2 * Real.pi) ∧
      0 ≤ parker_spiral_function defaultGeometry r lon u ∧
      parker_spiral_function defaultGeometry r lon u < 2 * Real.pi := by
  have h2pi : 0 < 2 * Real.pi := by positivity
  refine ⟨?_, fmod_nonneg_of_pos _ h2pi, fmod_lt_of_pos _ h2pi⟩
  unfold parker_spiral_function Geometry.solar_rotation_rate
    Geometry.source_surface_radius defaultGeometry
  norm_num

/-- C3 witness at `r = 0`, `lon = 0`, `u_sw = 1`. -/
theorem C3_parker_spiral_formula_witness :
    (0 : ℝ) < 1 ∧
      (parker_spiral_function defaultGeometry 0 0 1 =
        fmod (0 + (2 * Real.pi / (25.38 * 86400) / 1) *
          (0 * 1000 - 2.5 * 696000 * 1000)) (2 * Real.pi) ∧
      0 ≤ parker_spiral_function defaultGeometry 0 0 1 ∧
      parker_spiral_function defaultGeometry 0 0 1 < 2 * Real.pi) :=
  ⟨by norm_num, C3_parker_spiral_formula 0 0 1 (by norm_num)⟩

/-- C9: every longitude stored by the Angular Projector lies in `[0, 2π)`,
whatever the raw input longitude, because `calculate_angles` applies
`% (2 * np.pi)` unconditionally. -/
theorem C9_projected_longitude_range (raw : List (List (ℝ × ℝ)))
    (row : List ℝ) (lon : ℝ) (hrow : row ∈ (calculate_angles raw).1)
    (hlon : lon ∈ row) : 0 ≤ lon ∧ lon < 2 * Real.pi := by
  have h2pi : 0 < 2 * Real.pi := by positivity
  rw [calculate_angles] at hrow
  obtain ⟨r0, _, rfl⟩ := List.mem_map.mp hrow
  obtain ⟨s, _, rfl⟩ := List.mem_map.mp hlon
  exact ⟨fmod_nonneg_of_pos _ h2pi, fmod_lt_of_pos _ h2pi⟩

/-- C9 witness: a raw longitude of `-1` radian is stored wrapped into
`[0, 2π)`. -/
theorem C9_projected_longitude_range_witness :
    [fmod (-1) (2 * Real.pi)] ∈ (calculate_angles [[(-1, 0)]]).1 ∧
      fmod (-1) (2 * Real.pi) ∈ [fmod (-1) (2 * Real.pi)] ∧
      (0 ≤ fmod (-1) (2 * Real.pi) ∧ fmod (-1) (2 * Real.pi) < 2 * Real.pi) :=
  ⟨by simp [calculate_angles], List.mem_singleton.mpr rfl,
    C9_projected_longitude_range [[(-1, 0)]] [fmod (-1) (2 * Real.pi)]
      (fmod (-1) (2 * Real.pi)) (by simp [calculate_angles])
      (List.mem_singleton.mpr rfl)⟩

/-- C2 counterexample: the claim's own boundary pair — longitudes
`ε = π/36` (5°) and `2π - ε` with circular separation `2ε = 10°` equal to
the default `cone_width` — satisfies the spec's wrapped-difference
condition yet is NOT classified as aligned by cone mode, which compares
the raw difference `|lonA - lonB| ≈ 2π - 10°`. -/
theorem C2_cone_wrap_counterexample :
    |wrapSpec (Real.pi / 36 - (2 * Real.pi - Real.pi / 36))| ≤
        defaultGeometry.cone_width ∧
      ¬ conditionFor defaultGeometry "cone" none 400000
        ⟨Real.pi / 36, 0, 1⟩ ⟨2 * Real.pi - Real.pi / 36, 0, 1⟩ := by
  have hpi := Real.pi_pos
  constructor
  · have hr : round ((Real.pi / 36 - (2 * Real.pi - Real.pi / 36)) /
        (2 * Real.pi)) = -1 := by
      have h1 : (Real.pi / 36 - (2 * Real.pi - Real.pi / 36)) / (2 * Real.pi) =
          -35 / 36 := by
        field_simp
        ring
      rw [h1, round_eq]
      norm_num
    rw [wrapSpec, hr]
    have h2 : Real.pi / 36 - (2 * Real.pi - Real.pi / 36) -
        2 * Real.pi * ((-1 : ℤ) : ℝ) = Real.pi / 18 := by
      push_cast
      ring
    rw [h2, abs_of_nonneg (by positivity)]
    show Real.pi / 18 ≤ 10 * Real.pi / 180
    linarith
  · rw [conditionFor_cone]
    show ¬ |Real.pi / 36 - (2 * Real.pi - Real.pi / 36)| ≤ 10 * Real.pi / 180
    have h3 : Real.pi / 36 - (2 * Real.pi - Real.pi / 36) = Real.pi / 18 -
        2 * Real.pi := by ring
    rw [h3, abs_of_neg (by linarith)]
    intro hcon
    linarith

/-- C2 amended: cone mode classifies a pair as aligned iff the raw
absolute difference of the stored (wrapped) longitudes is at most
`cone_width`; the signed difference is not re-wrapped, so a pair whose
circular separation is small across the 0/2π boundary is compared by the
large raw difference. -/
theorem C2_cone_raw_difference (g : Geometry) (aa : Option ℝ) (u : ℝ)
    (s1 s2 : BodyState) :
    conditionFor g "cone" aa u s1 s2 ↔ |s1.lon - s2.lon| ≤ g.cone_width :=
  conditionFor_cone g aa u s1 s2

/- ## Parker mode: the latitude conjunct and symmetry -/

theorem parker_at_source_surface (g : Geometry) (lon u : ℝ) :
    parker_spiral_function g 1740000 lon u = fmod lon (2 * Real.pi) := by
  unfold parker_spiral_function Geometry.source_surface_radius
  norm_num

theorem fmod_zero_left (y : ℝ) : fmod 0 y = 0 := by
  simp [fmod]

/-- C5 counterexample: in the `spatialitems` variant of the geometry
module, two bodies with identical Parker phases but latitudes 0 and 1
radian (far beyond the default 10° tolerance) are classified as aligned in
parker mode — the latitude-closeness condition the claim requires is not
part of that classifier. -/
theorem C5_spatialitems_parker_no_latitude_counterexample :
    spatialitems_conditionFor defaultGeometry "parker" none 400000
        ⟨0, 0, 1740000⟩ ⟨0, 1, 1740000⟩ ∧
      ¬ np_isclose (0 : ℝ) 1 defaultGeometry.tolerance := by
  constructor
  · rw [spatialitems_conditionFor_parker]
    show np_isclose (parker_spiral_function defaultGeometry 1740000 0 400000)
      (parker_spiral_function defaultGeometry 1740000 0 400000)
      defaultGeometry.tolerance_parker
    rw [parker_at_source_surface, fmod_zero_left]
    unfold np_isclose Geometry.tolerance_parker
    have hpi := Real.pi_pos
    rw [abs_of_nonneg (by norm_num : (0:ℝ) ≤ 0 - 0)]
    norm_num
    positivity
  · show ¬ np_isclose (0 : ℝ) 1 (10 * Real.pi / 180)
    unfold np_isclose
    intro h
    rw [abs_of_nonpos (by norm_num), abs_of_nonneg (by norm_num)] at h
    norm_num at h
    have hpi := Real.pi_lt_d2
    linarith

/-- C5 amended: in the primary module `solarconflux/geometries.py` (the one
the scanner `matching_dates` imports), parker mode requires the latitude
condition in addition to the Parker-phase condition; in the
`solarconflux/spatialitems/geometries.py` variant, parker mode is the
Parker-phase condition alone. -/
theorem C5_parker_latitude_variants :
    (∀ (g : Geometry) (aa : Option ℝ) (u : ℝ) (s1 s2 : BodyState),
      conditionFor g "parker" aa u s1 s2 ↔
        (np_isclose (parker_spiral_function g s1.r s1.lon u)
            (parker_spiral_function g s2.r s2.lon u) g.tolerance_parker ∧
          np_isclose s1.lat s2.lat g.tolerance)) ∧
    (∀ (g : Geometry) (aa : Option ℝ) (u : ℝ) (s1 s2 : BodyState),
      spatialitems_conditionFor g "parker" aa u s1 s2 ↔
        np_isclose (parker_spiral_function g s1.r s1.lon u)
          (parker_spiral_function g s2.r s2.lon u) g.tolerance_parker) :=
  ⟨conditionFor_parker, spatialitems_conditionFor_parker⟩

/-- C10 counterexample: parker mode is not symmetric. With identical
latitudes and Parker phases `0` and `π/36 + π/36000000`, anchor A accepts B
(`np.isclose`'s relative term is taken on B's phase) but anchor B rejects A
(the relative term is taken on A's phase, which is zero). -/
theorem C10_parker_asymmetry_counterexample :
    conditionFor defaultGeometry "parker" none 400000
        ⟨0, 0, 1740000⟩ ⟨Real.pi / 36 + Real.pi / 36000000, 0, 1740000⟩ ∧
      ¬ conditionFor defaultGeometry "parker" none 400000
        ⟨Real.pi / 36 + Real.pi / 36000000, 0, 1740000⟩ ⟨0, 0, 1740000⟩ := by
  have hpi := Real.pi_pos
  have hL0 : (0 : ℝ) ≤ Real.pi / 36 + Real.pi / 36000000 := by positivity
  have hL2 : Real.pi / 36 + Real.pi / 36000000 < 2 * Real.pi := by linarith
  have hA : parker_spiral_function defaultGeometry 1740000 0 400000 = 0 := by
    rw [parker_at_source_surface, fmod_zero_left]
  have hB : parker_spiral_function defaultGeometry 1740000
      (Real.pi / 36 + Real.pi / 36000000) 400000 =
      Real.pi / 36 + Real.pi / 36000000 := by
    rw [parker_at_source_surface]
    exact fmod_eq_self hL0 hL2
  have hlat : np_isclose (0 : ℝ) 0 defaultGeometry.tolerance := by
    show np_isclose (0 : ℝ) 0 (10 * Real.pi / 180)
    unfold np_isclose
    rw [abs_of_nonneg (by norm_num : (0:ℝ) ≤ 0 - 0)]
    norm_num
    positivity
  constructor
  · rw [conditionFor_parker]
    refine ⟨?_, hlat⟩
    show np_isclose (parker_spiral_function defaultGeometry 1740000 0 400000)
      (parker_spiral_function defaultGeometry 1740000
        (Real.pi / 36 + Real.pi / 36000000) 400000)
      defaultGeometry.tolerance_parker
    rw [hA, hB]
    show np_isclose 0 (Real.pi / 36 + Real.pi / 36000000) (5 * Real.pi / 180)
    unfold np_isclose
    rw [abs_of_nonpos (by linarith), abs_of_nonneg hL0]
    norm_num
    linarith
  · rw [conditionFor_parker]
    rintro ⟨h1, -⟩
    have h2 : np_isclose (parker_spiral_function defaultGeometry 1740000
        (Real.pi / 36 + Real.pi / 36000000) 400000)
        (parker_spiral_function defaultGeometry 1740000 0 400000)
        defaultGeometry.tolerance_parker := h1
    rw [hA, hB] at h2
    have h3 : np_isclose (Real.pi / 36 + Real.pi / 36000000) 0
        (5 * Real.pi / 180) := h2
    unfold np_isclose at h3
    rw [abs_of_nonneg (by linarith), abs_of_nonpos (by norm_num)] at h3
    norm_num at h3
    linarith

/-- C10 amended: the pairwise decision is symmetric in the opposition,
cone, quadrature and arbitrary modes (their conditions depend only on the
absolute differences, compared against a fixed reference); it is not
symmetric in parker/coneparker, where `np.isclose`'s relative-tolerance
term is computed from the second body's phase and latitude. -/
theorem C10_symmetric_modes (g : Geometry) (mode : String) (aa : Option ℝ)
    (u : ℝ) (s1 s2 : BodyState)
    (hm : mode ∈ ["opposition", "cone", "quadrature", "arbitrary"]) :
    conditionFor g mode aa u s1 s2 ↔ conditionFor g mode aa u s2 s1 := by
  simp only [List.mem_cons, List.not_mem_nil, or_false] at hm
  rcases hm with rfl | rfl | rfl | rfl
  · rw [conditionFor_opposition, conditionFor_opposition, abs_sub_comm]
  · rw [conditionFor_cone, conditionFor_cone, abs_sub_comm]
  · rw [conditionFor_quadrature, conditionFor_quadrature,
      abs_sub_comm, abs_sub_comm s1.lat]
  · cases aa with
    | some a => rw [conditionFor_arbitrary_some, conditionFor_arbitrary_some,
        abs_sub_comm]
    | none =>
        constructor
        · intro h
          exact absurd h (conditionFor_arbitrary_none g u s1 s2)
        · intro h
          exact absurd h (conditionFor_arbitrary_none g u s2 s1)

/-- C10 witness: symmetry instantiated in cone mode at concrete states. -/
theorem C10_symmetric_modes_witness :
    ("cone" ∈ ["opposition", "cone", "quadrature", "arbitrary"]) ∧
      (conditionFor defaultGeometry "cone" none 400000
          ⟨0, 0, 1⟩ ⟨1, 0, 1⟩ ↔
        conditionFor defaultGeometry "cone" none 400000
          ⟨1, 0, 1⟩ ⟨0, 0, 1⟩) :=
  ⟨by decide, C10_symmetric_modes defaultGeometry "cone" none 400000
    ⟨0, 0, 1⟩ ⟨1, 0, 1⟩ (by decide)⟩

/- ## The scanner and the absent error handling -/

theorem np_isclose_self (x t : ℝ) (ht : 0 ≤ t) : np_isclose x x t := by
  unfold np_isclose
  rw [sub_self, abs_zero]
  have h : (0 : ℝ) ≤ (1e-5 : ℝ) * |x| := by positivity
  linarith

/-- C6 counterexample: no ConfigurationError exists. Requesting arbitrary
mode without an angle classifies every pair as simply not aligned (the
final `else` of the chain), and parker mode with a negative solar wind
speed runs and even classifies a body as aligned with itself — neither
input is rejected. -/
theorem C6_no_configuration_error_counterexample :
    ¬ conditionFor defaultGeometry "arbitrary" none 400000
        ⟨0, 0, 1⟩ ⟨0, 0, 1⟩ ∧
      conditionFor defaultGeometry "parker" none (-400000)
        ⟨0, 0, 1⟩ ⟨0, 0, 1⟩ := by
  constructor
  · exact conditionFor_arbitrary_none defaultGeometry 400000 _ _
  · rw [conditionFor_parker]
    constructor
    · exact np_isclose_self _ _
        (by unfold Geometry.tolerance_parker; positivity)
    · show np_isclose (0 : ℝ) 0 (10 * Real.pi / 180)
      exact np_isclose_self _ _ (by positivity)

/-- C6 amended: the scan never surfaces a ConfigurationError. Arbitrary
mode without `arbitrary_angle` silently never matches (its scan simply
produces no groups), and `solar_wind_speed` is not validated: parker mode
accepts a negative speed and evaluates the same formula (shown here on a
body paired with itself, which passes whenever the latitude tolerance is
nonnegative). Other requested modes run regardless, since no exception
interrupts the mode loop. -/
theorem C6_modes_run_without_validation (g : Geometry) (aa : Option ℝ)
    (u : ℝ) (s1 s2 : BodyState) (htol : 0 ≤ g.tolerance) :
    ¬ conditionFor g "arbitrary" none u s1 s2 ∧
      conditionFor g "parker" aa (-400000) s1 s1 := by
  constructor
  · exact conditionFor_arbitrary_none g u s1 s2
  · rw [conditionFor_parker]
    exact ⟨np_isclose_self _ _ (by unfold Geometry.tolerance_parker; positivity),
      np_isclose_self _ _ htol⟩

/-- C6 witness at the default configuration. -/
theorem C6_modes_run_without_validation_witness :
    (0 : ℝ) ≤ defaultGeometry.tolerance ∧
      (¬ conditionFor defaultGeometry "arbitrary" none 400000
          ⟨1, 0, 2⟩ ⟨1, 0, 2⟩ ∧
        conditionFor defaultGeometry "parker" none (-400000) ⟨1, 0, 2⟩ ⟨1, 0, 2⟩) :=
  ⟨by show (0:ℝ) ≤ 10 * Real.pi / 180; positivity,
    C6_modes_run_without_validation defaultGeometry none 400000
      ⟨1, 0, 2⟩ ⟨1, 0, 2⟩ (by show (0:ℝ) ≤ 10 * Real.pi / 180; positivity)⟩

theorem matching_datesAux_lookup_preserved (check : String → List TrackRec)
    (rest : List String) (acc : List (String × List TrackRec)) (mode : String)
    (h : lookupD acc mode = some (check mode.toLower)) :
    lookupD (matching_datesAux check rest acc) mode = some (check mode.toLower) := by
  induction rest generalizing acc with
  | nil => simpa [matching_datesAux] using h
  | cons m rest ih =>
    rw [matching_datesAux]
    apply ih
    split_ifs with h1 h2
    · by_cases hmm : m = mode
      · subst hmm
        exact lookupD_dictInsert_self acc m (check m.toLower)
      · rw [lookupD_dictInsert_ne _ _ (fun hh => hmm hh.symm)]
        exact h
    · exact h
    · exact h

theorem matching_datesAux_lookup_none (check : String → List TrackRec)
    (mode : String) (hempty : check mode.toLower = []) :
    ∀ (rest : List String) (acc : List (String × List TrackRec)),
      lookupD acc mode = none →
      lookupD (matching_datesAux check rest acc) mode = none := by
  intro rest
  induction rest with
  | nil =>
    intro acc h
    simpa [matching_datesAux] using h
  | cons m rest ih =>
    intro acc h
    rw [matching_datesAux]
    apply ih
    split_ifs with h1 h2
    · by_cases hmm : m = mode
      · subst hmm
        exact absurd hempty h2
      · rw [lookupD_dictInsert_ne _ _ (fun hh => hmm hh.symm)]
        exact h
    · exact h
    · exact h

theorem matching_datesAux_lookup_found (check : String → List TrackRec)
    (mode : String) (hrec : mode ∈ recognizedModes)
    (hne : check mode.toLower ≠ []) :
    ∀ (choices : List String) (acc : List (String × List TrackRec)),
      mode ∈ choices →
      (lookupD acc mode = none ∨ lookupD acc mode = some (check mode.toLower)) →
      lookupD (matching_datesAux check choices acc) mode = some (check mode.toLower) := by
  intro choices
  induction choices with
  | nil =>
    intro acc hmem _
    exact absurd hmem (List.not_mem_nil mode)
  | cons m rest ih =>
    intro acc hmem hinv
    rw [matching_datesAux]
    rcases List.mem_cons.mp hmem with rfl | hmem2
    · rw [if_pos hrec, if_pos hne]
      apply matching_datesAux_lookup_preserved
      exact lookupD_dictInsert_self acc mode (check mode.toLower)
    · apply ih _ hmem2
      split_ifs with h1 h2
      · by_cases hmm : m = mode
        · subst hmm
          right
          exact lookupD_dictInsert_self acc m (check m.toLower)
        · rw [lookupD_dictInsert_ne _ _ (fun hh => hmm hh.symm)]
          exact hinv
      · exact hinv
      · exact hinv

/-- C7 counterexample: a recognized requested mode whose scan yields zero
records is omitted from the result (`if matches:` is false on an empty
list), so the result for `["cone"]` with no matches is the empty dict, not
a dict mapping cone to an empty list. -/
theorem C7_empty_mode_omitted_counterexample :
    matching_dates ["cone"] (fun _ => ([] : List TrackRec)) = [] ∧
      lookupD (matching_dates ["cone"] (fun _ => ([] : List TrackRec))) "cone" =
        none := by
  constructor <;> rfl

/-- C7 amended: the scanner's result maps a requested recognized mode to
its record list when that list is non-empty, and omits the mode entirely
when its scan produced zero records — so a caller cannot distinguish
"ran, no matches" from "not requested" by key presence. -/
theorem C7_scanner_mapping (choices : List String)
    (check : String → List TrackRec) (mode : String) (h1 : mode ∈ choices)
    (h2 : mode ∈ recognizedModes) :
    (check mode.toLower ≠ [] →
      lookupD (matching_dates choices check) mode = some (check mode.toLower)) ∧
    (check mode.toLower = [] →
      lookupD (matching_dates choices check) mode = none) := by
  constructor
  · intro hne
    exact matching_datesAux_lookup_found check mode h2 hne choices [] h1 (Or.inl rfl)
  · intro hempty
    exact matching_datesAux_lookup_none check mode hempty choices [] rfl

/-- C7 witness: one recognized mode with one record is reported under its
key. -/
theorem C7_scanner_mapping_witness :
    ("cone" ∈ (["cone"] : List String)) ∧ "cone" ∈ recognizedModes ∧
      (([((1 : ℕ), (2 : ℕ), ["A", "B"])] : List TrackRec) ≠ [] →
        lookupD (matching_dates ["cone"] (fun _ => [(1, 2, ["A", "B"])])) "cone" =
          some [(1, 2, ["A", "B"])]) ∧
      (([((1 : ℕ), (2 : ℕ), ["A", "B"])] : List TrackRec) = [] →
        lookupD (matching_dates ["cone"] (fun _ => [(1, 2, ["A", "B"])])) "cone" =
          none) :=
  ⟨by decide, by decide,
    C7_scanner_mapping ["cone"] (fun _ => [(1, 2, ["A", "B"])]) "cone"
      (by decide) (by decide)⟩

/-- C8 counterexample: an unrecognized mode is silently passed over, not
rejected with a reported error — even when its scan would have produced
records, the output is identical to the output when the mode was never
requested. -/
theorem C8_silent_skip_counterexample :
    matching_dates ["bogus"] (fun _ => [(1, 2, ["A", "B"])]) = [] ∧
      matching_dates ["bogus"] (fun _ => [(1, 2, ["A", "B"])]) =
        matching_dates [] (fun _ => [(1, 2, ["A", "B"])]) := by
  constructor <;> rfl

/-- C8 amended: a requested mode outside the six recognized values is
silently skipped by the orchestration loop — no error value is produced
and the result is exactly the result over the remaining modes, so only
that mode is dropped. -/
theorem C8_unknown_mode_skipped (m : String) (choices : List String)
    (check : String → List TrackRec) (hm : m ∉ recognizedModes) :
    matching_dates (m :: choices) check = matching_dates choices check := by
  rw [matching_dates, matching_dates, matching_datesAux, if_neg hm]

/-- C8 witness: the mode string bogus is skipped in front of a recognized
mode. -/
theorem C8_unknown_mode_skipped_witness :
    ("bogus" ∉ recognizedModes) ∧
      matching_dates ["bogus", "cone"] (fun _ => []) =
        matching_dates ["cone"] (fun _ => []) :=
  ⟨by decide, C8_unknown_mode_skipped "bogus" ["cone"] (fun _ => []) (by decide)⟩
